import Mathlib

/-!
Verification of the nimsforestviewer orchestration core.

Shallow embedding of the Go sources:
- `state.go` (ViewState / LandView / ProcessView / SummaryView data model),
- `json.go` (`ViewStateToJSON`, `calculateOccupancy`, `processViewsToJSON`),
- `viewer.go` (`Viewer.Update` fan-out, `Viewer.Start` / `Viewer.Stop` lifecycle),
- `target_web.go` (`WebTarget.handleViewmodel`),
- `target_smarttv.go` (`SmartTVTarget.Update` change suppression),
- `target_video.go` (`VideoTarget.generateVideo` cancellation path).

Go `uint64` is modelled as `Nat`, Go `int` as `Int` (indices that are
provably non-negative are kept as `Nat`), Go `float64` as `ℚ` (all the
arithmetic the claims touch is exact in this range), Go errors as
`Option`/`Except` values carrying the formatted message structure.
-/

deriving instance DecidableEq for Except

namespace NimsforestViewer

/-- `ProcessView` from state.go.  Go field `Type` is rendered `typeTag`
because `Type` is reserved in Lean; all other field names are kept. -/
structure ProcessView where
  ID : String
  Name : String
  typeTag : String
  RAMAllocated : Nat
  Progress : ℚ
deriving DecidableEq, Repr

/-- `LandView` from state.go. -/
structure LandView where
  ID : String
  Hostname : String
  GridX : Int
  GridY : Int
  IsManaland : Bool
  Occupancy : ℚ
  RAMTotal : Nat
  RAMAllocated : Nat
  Trees : List ProcessView
  Treehouses : List ProcessView
  Nims : List ProcessView
deriving DecidableEq, Repr

/-- `SummaryView` from state.go. -/
structure SummaryView where
  TotalLands : Int
  TotalManalands : Int
  TotalTrees : Int
  TotalTreehouses : Int
  TotalNims : Int
  TotalRAM : Nat
  AllocatedRAM : Nat
deriving DecidableEq, Repr

/-- `ViewState` from state.go. -/
structure ViewState where
  Lands : List LandView
  Summary : SummaryView
deriving DecidableEq, Repr

/-- `ProcessJSON` from json.go (fields the projection never sets keep the Go
zero value). -/
structure ProcessJSON where
  ID : String
  Name : String
  RAMAllocated : Nat
  typeTag : String
  Progress : ℚ
  Subjects : List String
  ScriptPath : String
  AIEnabled : Bool
  Model : String
deriving DecidableEq, Repr

/-- `LandJSON` from json.go. -/
structure LandJSON where
  ID : String
  Hostname : String
  RAMTotal : Nat
  RAMAllocated : Nat
  CPUCores : Int
  CPUFreqGHz : ℚ
  GPUVram : Nat
  GPUTflops : ℚ
  Occupancy : ℚ
  IsManaland : Bool
  GridX : Int
  GridY : Int
  Trees : List ProcessJSON
  Treehouses : List ProcessJSON
  Nims : List ProcessJSON
deriving DecidableEq, Repr

/-- `SummaryJSON` from json.go. -/
structure SummaryJSON where
  LandCount : Int
  ManalandCount : Int
  TreeCount : Int
  TreehouseCount : Int
  NimCount : Int
  TotalRAM : Nat
  RAMAllocated : Nat
  Occupancy : ℚ
deriving DecidableEq, Repr

/-- `WorldJSON` from json.go. -/
structure WorldJSON where
  Lands : List LandJSON
  Summary : SummaryJSON
deriving DecidableEq, Repr

/-- The Go zero value `WorldJSON{}` (nil lands slice, zero summary). -/
def emptyWorldJSON : WorldJSON :=
  { Lands := []
    Summary :=
      { LandCount := 0, ManalandCount := 0, TreeCount := 0, TreehouseCount := 0
        NimCount := 0, TotalRAM := 0, RAMAllocated := 0, Occupancy := 0 } }

/-- `calculateOccupancy` from json.go: `allocated/total`, `0` when `total == 0`.
The Go `float64` quotient is modelled exactly in `ℚ`. -/
def calculateOccupancy (allocated total : Nat) : ℚ :=
  if total = 0 then 0 else (allocated : ℚ) / (total : ℚ)

/-- `int(math.Ceil(math.Sqrt(float64 n)))` from json.go, as the exact integer
ceiling of the square root (the two agree for every slice length the Go `int`
can realistically hold, i.e. below `2^52`). -/
def ceilSqrt (n : Nat) : Nat :=
  if Nat.sqrt n * Nat.sqrt n = n then Nat.sqrt n else Nat.sqrt n + 1

/-- The `gridSize` computation of `ViewStateToJSON`: ceiling square root of
the number of lands, clamped below by 1. -/
def gridSizeFor (n : Nat) : Nat :=
  max (ceilSqrt n) 1

/-- `processViewsToJSON` from json.go: the `Type` tag is injected per array,
`Progress` is copied, the remaining JSON fields keep their zero value. -/
def processViewsToJSON (processes : List ProcessView) (procType : String) :
    List ProcessJSON :=
  processes.map fun p =>
    { ID := p.ID, Name := p.Name, RAMAllocated := p.RAMAllocated
      typeTag := procType, Progress := p.Progress
      Subjects := [], ScriptPath := "", AIEnabled := false, Model := "" }

/-- The body of the per-land loop of `ViewStateToJSON` (json.go lines 71-91):
land at index `i` takes the computed square-grid coordinates exactly when its
stored coordinates are the origin and `i > 0`. -/
def landToJSON (gridSize i : Nat) (land : LandView) : LandJSON :=
  let replace := land.GridX = 0 ∧ land.GridY = 0 ∧ 0 < i
  { ID := land.ID, Hostname := land.Hostname
    RAMTotal := land.RAMTotal, RAMAllocated := land.RAMAllocated
    CPUCores := 0, CPUFreqGHz := 0, GPUVram := 0, GPUTflops := 0
    Occupancy := land.Occupancy, IsManaland := land.IsManaland
    GridX := if replace then ((i % gridSize : Nat) : Int) else land.GridX
    GridY := if replace then ((i / gridSize : Nat) : Int) else land.GridY
    Trees := processViewsToJSON land.Trees "tree"
    Treehouses := processViewsToJSON land.Treehouses "treehouse"
    Nims := processViewsToJSON land.Nims "nim" }

/-- The indexed loop of `ViewStateToJSON` over the lands slice. -/
def landsToJSON (gridSize : Nat) : Nat → List LandView → List LandJSON
  | _, [] => []
  | i, land :: rest => landToJSON gridSize i land :: landsToJSON gridSize (i + 1) rest

/-- `ViewStateToJSON` from json.go; the Go nil-pointer guard is the `none`
case. -/
def ViewStateToJSON : Option ViewState → WorldJSON
  | none => emptyWorldJSON
  | some state =>
    let gridSize := gridSizeFor state.Lands.length
    { Lands := landsToJSON gridSize 0 state.Lands
      Summary :=
        { LandCount := state.Summary.TotalLands
          ManalandCount := state.Summary.TotalManalands
          TreeCount := state.Summary.TotalTrees
          TreehouseCount := state.Summary.TotalTreehouses
          NimCount := state.Summary.TotalNims
          TotalRAM := state.Summary.TotalRAM
          RAMAllocated := state.Summary.AllocatedRAM
          Occupancy := calculateOccupancy state.Summary.AllocatedRAM
            state.Summary.TotalRAM } }

/-- `WebTarget.handleViewmodel` from target_web.go: reads the held snapshot
under the lock and always answers HTTP 200 with a JSON body; a nil snapshot
yields the encoded zero `WorldJSON`. -/
def handleViewmodel (held : Option ViewState) : Nat × WorldJSON :=
  match held with
  | none => (200, emptyWorldJSON)
  | some state => (200, ViewStateToJSON (some state))

/-- The error values `Viewer.Update` (viewer.go lines 118-142) can return,
keeping the structure of the `fmt.Errorf` wrapping: `targetFailed` carries
exactly one target name and one wrapped cause, because the Go code builds
each error as `fmt.Errorf("target %s: %w", name, err)`. -/
inductive ViewerError where
  | noProvider
  | providerFailed (cause : String)
  | targetFailed (name : String) (cause : String)
deriving DecidableEq, Repr

/-- A registered target as `Viewer.Update` sees it: a diagnostic name and the
outcome of its `Update(ctx, state)` call on a given snapshot (the Target
interface of target.go, with I/O abstracted to its result). -/
structure TargetModel where
  Name : String
  update : ViewState → Except String Unit

/-- Whether a target's `update` fails on a snapshot. -/
def failsOn (state : ViewState) (t : TargetModel) : Bool :=
  match t.update state with
  | Except.error _ => true
  | Except.ok _ => false

/-- The cause string of a failing target's `update` (empty for a success). -/
def updateErrOf (state : ViewState) (t : TargetModel) : String :=
  match t.update state with
  | Except.error e => e
  | Except.ok _ => ""

/-- The fan-out loop of `Viewer.Update` (viewer.go lines 136-140): every
target's `Update` is invoked in order; the accumulator carries the trace of
invoked target names and the Go `lastErr` variable, which is overwritten by
each failure. -/
def fanOutGo (state : ViewState) :
    List TargetModel → List String × Option ViewerError →
    List String × Option ViewerError
  | [], acc => acc
  | t :: rest, acc =>
    fanOutGo state rest
      (acc.1 ++ [t.Name],
       match t.update state with
       | Except.error e => some (ViewerError.targetFailed t.Name e)
       | Except.ok _ => acc.2)

/-- `Viewer.Update` from viewer.go: the provider is `none` when no
`StateProvider` is set, `some (Except.error e)` when its fetch fails, and
`some (Except.ok state)` on success.  Returns the trace of target names whose
`update` was invoked, paired with the returned error. -/
def viewerUpdate (provider : Option (Except String ViewState))
    (targets : List TargetModel) : List String × Option ViewerError :=
  match provider with
  | none => ([], some ViewerError.noProvider)
  | some (Except.error e) => ([], some (ViewerError.providerFailed e))
  | some (Except.ok state) => fanOutGo state targets ([], none)

/-- The mutable lifecycle fields of `Viewer` (viewer.go): whether `v.cancel`
is non-nil, whether the `run` goroutine is live, and whether `v.done` has
been closed. -/
structure ViewerLifecycle where
  cancelSet : Bool
  loopRunning : Bool
  doneClosed : Bool
deriving DecidableEq, Repr

/-- A fresh `Viewer` from `New` (viewer.go lines 31-40). -/
def viewerNew : ViewerLifecycle :=
  { cancelSet := false, loopRunning := false, doneClosed := false }

/-- The two ways `Viewer.Start` can fail. -/
inductive StartError where
  | alreadyStarted
  | updateFailed
deriving DecidableEq, Repr

/-- `Viewer.Start` from viewer.go lines 70-87: rejects when `v.cancel` is
already non-nil; otherwise installs the cancel function, runs one immediate
`Update` (`updateOk` is its outcome), and only on success launches the `run`
goroutine.  On an initial-update failure the installed cancel function is
left in place and the goroutine is never launched. -/
def viewerStart (s : ViewerLifecycle) (updateOk : Bool) :
    ViewerLifecycle × Option StartError :=
  if s.cancelSet then
    (s, some StartError.alreadyStarted)
  else
    let s1 := { s with cancelSet := true }
    if updateOk then
      ({ s1 with loopRunning := true }, none)
    else
      (s1, some StartError.updateFailed)

/-- `Viewer.Stop` from viewer.go lines 105-115: cancels if a cancel function
is installed, then blocks on `<-v.done`.  The returned flag is `true` when
that receive can never complete: `done` is only ever closed by the `run`
goroutine's deferred `close(v.done)`, so `Stop` blocks forever when no loop
is running and `done` was never closed. -/
def viewerStop (s : ViewerLifecycle) : ViewerLifecycle × Bool :=
  let s1 := { s with cancelSet := false }
  if s.loopRunning then
    ({ s1 with loopRunning := false, doneClosed := true }, false)
  else if s.doneClosed then
    (s1, false)
  else
    (s1, true)

/-- The change-suppression core of `SmartTVTarget.Update`
(target_smarttv.go lines 112-123), starting after a successful render and
encode: `lastImageBytes` is the cached byte slice, `jpegData` the freshly
encoded bytes, `pushOk` the outcome of `DisplayImageJPEG`.  Returns the new
cache, whether a network push was attempted, and the returned error.  Note
the cache is overwritten *before* the push, so a failed push still updates
it. -/
def tvUpdate (lastImageBytes jpegData : List Nat) (pushOk : Bool) :
    List Nat × Bool × Option String :=
  if jpegData = lastImageBytes then
    (lastImageBytes, false, none)
  else if pushOk then
    (jpegData, true, none)
  else
    (jpegData, true, some "display on TV")

/-- A run of successive `SmartTVTarget.Update` calls: each call supplies its
encoded bytes and whether the display push would succeed; the result is the
per-call pushed? flag. -/
def tvRun (cache : List Nat) : List (List Nat × Bool) → List Bool
  | [] => []
  | (jpegData, pushOk) :: rest =>
    let r := tvUpdate cache jpegData pushOk
    r.2.1 :: tvRun r.1 rest

/-- Same run, additionally tracking for each call the bytes of the most
recent *successful* push made before that call (the quantity the spec's
change-suppression sentence speaks about). -/
def tvRunFull (cache : List Nat) (lastSuccess : Option (List Nat)) :
    List (List Nat × Bool) → List (Bool × Option (List Nat))
  | [] => []
  | (jpegData, pushOk) :: rest =>
    let r := tvUpdate cache jpegData pushOk
    let lastSuccess' := if r.2.1 && pushOk then some jpegData else lastSuccess
    (r.2.1, lastSuccess) :: tvRunFull r.1 lastSuccess' rest

/-- The claim's reading of change suppression, stated from the spec's words
for refutation: whenever a call's encoded bytes equal the bytes of the
previous successful push, that call must not push. -/
def suppressionWrtLastSuccessfulPush (calls : List (List Nat × Bool)) : Prop :=
  ∀ p ∈ calls.zip (tvRunFull [] none calls),
    some p.1.1 = p.2.2 → p.2.1 = false

/-- Per-call change flags relative to the bytes of the immediately preceding
call (the initial cache standing in before the first call): the independent
characterization of when `SmartTVTarget.Update` actually pushes. -/
def changedFlags (prev : List Nat) : List (List Nat × Bool) → List Bool
  | [] => []
  | (jpegData, _) :: rest =>
    (decide (jpegData ≠ prev)) :: changedFlags jpegData rest

/-- Observable outcome of one `VideoTarget.generateVideo` call
(target_video.go lines 320-380): frames handed to the encoder, whether the
encoder stdin pipe was closed, whether the ffmpeg process was awaited
(reaped, hence not left running), whether `os.Remove` was invoked on the
output file (the function contains no such call on any path), and the
returned error. -/
structure GenOutcome where
  framesWritten : Nat
  stdinClosed : Bool
  encoderReaped : Bool
  outputFileRemoved : Bool
  result : Except String Unit
deriving DecidableEq, Repr

/-- Whether the cancellation token has fired by the check before frame `i`
(`cancelAt = some c` means the token fires before the check for frame `c`
and every later frame). -/
def ctxDone (cancelAt : Option Nat) (i : Nat) : Bool :=
  match cancelAt with
  | some c => c ≤ i
  | none => false

/-- The frame loop of `generateVideo` (target_video.go lines 354-372):
checks the token before each frame, skips frames the renderer drops
(`renderOk i = false` is a nil frame, a `continue`), and otherwise writes the
frame's pixels to the encoder.  Returns the number of frames written and
whether the loop exited through the cancellation branch. -/
def genFrames (cancelAt : Option Nat) (renderOk : Nat → Bool) :
    Nat → Nat → Nat → Nat × Bool
  | _, 0, written => (written, false)
  | i, fuel + 1, written =>
    if ctxDone cancelAt i then
      (written, true)
    else
      genFrames cancelAt renderOk (i + 1) fuel
        (if renderOk i then written + 1 else written)

/-- `VideoTarget.generateVideo` from target_video.go: on cancellation the
code closes the encoder stdin and calls `ffmpeg.Wait()` (the process is
reaped), then returns `ctx.Err()`; on a normal exit it closes stdin, awaits
the encoder and surfaces a non-zero exit as an error.  No path invokes
`os.Remove` on the output file, so `outputFileRemoved` is `false` on every
path; the bytes already written to the encoder remain in the output file on
disk. -/
def generateVideo (totalFrames : Nat) (cancelAt : Option Nat)
    (renderOk : Nat → Bool) (encoderExitOk : Bool) : GenOutcome :=
  let r := genFrames cancelAt renderOk 0 totalFrames 0
  if r.2 then
    { framesWritten := r.1, stdinClosed := true, encoderReaped := true
      outputFileRemoved := false, result := Except.error "context canceled" }
  else if encoderExitOk then
    { framesWritten := r.1, stdinClosed := true, encoderReaped := true
      outputFileRemoved := false, result := Except.ok () }
  else
    { framesWritten := r.1, stdinClosed := true, encoderReaped := true
      outputFileRemoved := false, result := Except.error "ffmpeg encode" }

/-- A minimal concrete snapshot for concrete evaluations. -/
def sampleState : ViewState :=
  { Lands := []
    Summary :=
      { TotalLands := 0, TotalManalands := 0, TotalTrees := 0
        TotalTreehouses := 0, TotalNims := 0, TotalRAM := 0
        AllocatedRAM := 0 } }

/-- A target whose `update` always succeeds. -/
def tOk (name : String) : TargetModel :=
  { Name := name, update := fun _ => Except.ok () }

/-- A target whose `update` always fails with the given cause. -/
def tBad (name cause : String) : TargetModel :=
  { Name := name, update := fun _ => Except.error cause }

/-- The (name, cause) pairs a `ViewerError` value reports: the Go error
string `"target %s: %w"` carries exactly one name/cause pair. -/
def reportedTargets : Option ViewerError → List (String × String)
  | some (ViewerError.targetFailed name cause) => [(name, cause)]
  | _ => []

/-- A concrete land stored at the origin, for concrete evaluations. -/
def witnessLand0 : LandView :=
  { ID := "a", Hostname := "h", GridX := 0, GridY := 0, IsManaland := false
    Occupancy := 0, RAMTotal := 0, RAMAllocated := 0
    Trees := [], Treehouses := [], Nims := [] }

/-- A second concrete land, also stored at the origin. -/
def witnessLand1 : LandView :=
  { witnessLand0 with ID := "b" }

/-- A two-land snapshot whose second land sits at the stored origin. -/
def witnessState : ViewState :=
  { Lands := [witnessLand0, witnessLand1], Summary := sampleState.Summary }

/-! Helper lemmas about the fan-out loop. -/

/-- The fan-out loop invokes `update` once per target, in list order. -/
theorem fanOutGo_fst (state : ViewState) (ts : List TargetModel)
    (acc : List String × Option ViewerError) :
    (fanOutGo state ts acc).1 = acc.1 ++ ts.map (fun t => t.Name) := by
  induction ts generalizing acc with
  | nil => simp [fanOutGo]
  | cons t rest ih => simp [fanOutGo, ih]

/-- `find?` over an append splits on the first list's result. -/
theorem find?_append_cases (p : TargetModel → Bool) (l₁ l₂ : List TargetModel) :
    (l₁ ++ l₂).find? p =
      match l₁.find? p with
      | some t => some t
      | none => l₂.find? p := by
  induction l₁ with
  | nil => simp
  | cons t rest ih =>
    by_cases h : p t = true
    · simp [List.find?, h]
    · simp only [List.cons_append, List.find?, h]
      exact ih

/-- The `lastErr` variable of the fan-out loop holds the wrapped error of the
last failing target (the first failing one of the reversed list), and the
accumulator's error when no target fails. -/
theorem fanOutGo_snd (state : ViewState) (ts : List TargetModel)
    (acc : List String × Option ViewerError) :
    (fanOutGo state ts acc).2 =
      match ts.reverse.find? (failsOn state) with
      | some t => some (ViewerError.targetFailed t.Name (updateErrOf state t))
      | none => acc.2 := by
  induction ts generalizing acc with
  | nil => simp [fanOutGo]
  | cons t rest ih =>
    have hsplit := find?_append_cases (failsOn state) rest.reverse [t]
    cases hu : t.update state with
    | error e =>
      have hp : failsOn state t = true := by simp [failsOn, hu]
      have he : updateErrOf state t = e := by simp [updateErrOf, hu]
      simp only [fanOutGo, hu, List.reverse_cons, hsplit]
      rw [ih]
      rcases hf : rest.reverse.find? (failsOn state) with _ | u <;>
        simp [List.find?, hp, he]
    | ok v =>
      have hp : failsOn state t = false := by simp [failsOn, hu]
      simp only [fanOutGo, hu, List.reverse_cons, hsplit]
      rw [ih]
      rcases hf : rest.reverse.find? (failsOn state) with _ | u <;>
        simp [List.find?, hp]

/-! Claim theorems. -/

/-- Claim C3 (confirmed): with no StateProvider configured, or with a
provider whose fetch fails, `Viewer.Update` returns the corresponding error
and invokes `update` on no target (empty invocation trace), so no target's
state is touched and the target set is untouched. -/
theorem claim_C3 (targets : List TargetModel) (e : String) :
    viewerUpdate none targets = ([], some ViewerError.noProvider) ∧
    viewerUpdate (some (Except.error e)) targets =
      ([], some (ViewerError.providerFailed e)) :=
  ⟨rfl, rfl⟩

/-- Claim C4 (confirmed): after any `Start` call the cancel function is
installed, so a second `Start` without an intervening `Stop` fails with the
already-started error and leaves the lifecycle state (in particular whether
a loop is running) unchanged — at most one refresh loop is ever live. -/
theorem claim_C4 (s : ViewerLifecycle) (u u' : Bool) :
    (viewerStart (viewerStart s u).1 u').2 = some StartError.alreadyStarted ∧
    (viewerStart (viewerStart s u).1 u').1 = (viewerStart s u).1 := by
  rcases s with ⟨cs, lr, dc⟩
  cases cs <;> cases u <;> simp [viewerStart]

/-- Claim C5 (confirmed): the JSON projection derives summary occupancy with
`calculateOccupancy`, which is `allocated/total` and exactly `0` when the
total is `0`; at `TotalRAM = 56·10^9`, `AllocatedRAM = 23·10^9` it is within
`10^-4` of `0.4107`. -/
theorem claim_C5 :
    (∀ state : ViewState,
      (ViewStateToJSON (some state)).Summary.Occupancy =
        calculateOccupancy state.Summary.AllocatedRAM state.Summary.TotalRAM) ∧
    (∀ allocated : Nat, calculateOccupancy allocated 0 = 0) ∧
    |calculateOccupancy 23000000000 56000000000 - 4107 / 10000| <
      1 / 10000 := by
  refine ⟨fun state => rfl, fun allocated => rfl, ?_⟩
  have hval : calculateOccupancy 23000000000 56000000000 = 23 / 56 := by
    simp only [calculateOccupancy]
    norm_num
  rw [hval, abs_sub_lt_iff]
  constructor <;> norm_num

/-- Claim C8 (code_bug): cancelling `generateVideo` before frame index 1 of 3
(one frame already handed to the encoder) reaps the encoder process via
`ffmpeg.Wait()` but never invokes `os.Remove`, so the partially written
output file stays on disk, contradicting the claim's cleanup requirement. -/
theorem claim_C8_eval :
    (generateVideo 3 (some 1) (fun _ => true) true).result =
      Except.error "context canceled" ∧
    (generateVideo 3 (some 1) (fun _ => true) true).framesWritten = 1 ∧
    (generateVideo 3 (some 1) (fun _ => true) true).encoderReaped = true ∧
    (generateVideo 3 (some 1) (fun _ => true) true).outputFileRemoved =
      false :=
  ⟨rfl, rfl, rfl, rfl⟩

/-- Claim C9 (confirmed): the viewmodel handler with no snapshot held
answers HTTP 200 with the explicit empty world document, and it answers 200
for every held value — never an error response. -/
theorem claim_C9 :
    handleViewmodel none = (200, emptyWorldJSON) ∧
    (∀ held : Option ViewState, (handleViewmodel held).1 = 200) ∧
    emptyWorldJSON.Lands = [] := by
  refine ⟨rfl, ?_, rfl⟩
  intro held
  cases held <;> rfl

/-- Claim C10 (confirmed): when the initial immediate refresh inside `Start`
fails, `Start` returns the error with no loop launched, yet the cancel
function stays installed: a second `Start` fails as already started, and
`Stop` blocks forever because `done` is never closed. -/
theorem claim_C10 :
    (viewerStart viewerNew false).2 = some StartError.updateFailed ∧
    ((viewerStart viewerNew false).1).loopRunning = false ∧
    ((viewerStart viewerNew false).1).cancelSet = true ∧
    (viewerStart (viewerStart viewerNew false).1 true).2 =
      some StartError.alreadyStarted ∧
    (viewerStop (viewerStart viewerNew false).1).2 = true := by
  decide

/-- Claim C1 (counterexample): with two failing targets `t1` and `t2`,
`Viewer.Update` returns only `target t2: e2` — the error reports one
(name, cause) pair, and `t1`'s failure is absent from it, so the returned
error is not an aggregate of every failure. -/
theorem claim_C1_counterexample :
    failsOn sampleState (tBad "t1" "e1") = true ∧
    failsOn sampleState (tBad "t2" "e2") = true ∧
    (viewerUpdate (some (Except.ok sampleState))
        [tBad "t1" "e1", tBad "t2" "e2"]).2 =
      some (ViewerError.targetFailed "t2" "e2") ∧
    ("t1", "e1") ∉ reportedTargets
      ((viewerUpdate (some (Except.ok sampleState))
        [tBad "t1" "e1", tBad "t2" "e2"]).2) := by
  refine ⟨rfl, rfl, rfl, ?_⟩
  decide

/-- Claim C1 (amended): the error returned by `Viewer.Update` on a
successful fetch is exactly the wrapped failure of the *last* failing target
in add-order (`none` when no target fails), because the loop's `lastErr`
variable is overwritten by each failure — not an aggregate of all of them. -/
theorem claim_C1_amended (state : ViewState) (targets : List TargetModel) :
    (viewerUpdate (some (Except.ok state)) targets).2 =
      (targets.reverse.find? (failsOn state)).map
        (fun t => ViewerError.targetFailed t.Name (updateErrOf state t)) := by
  have h := fanOutGo_snd state targets ([], none)
  simp only [viewerUpdate]
  rw [h]
  rcases targets.reverse.find? (failsOn state) with _ | u <;> simp

/-- Claim C2 (confirmed): when exactly one target's `update` fails on the
fetched snapshot, `Viewer.Update` still invokes `update` once on every
target in add-order (the invocation trace is exactly the names in order)
and returns the wrapped error naming the failing target with its cause. -/
theorem claim_C2 (state : ViewState) (pre post : List TargetModel)
    (t : TargetModel) (e : String)
    (hpre : ∀ u ∈ pre, failsOn state u = false)
    (ht : t.update state = Except.error e)
    (hpost : ∀ u ∈ post, failsOn state u = false) :
    viewerUpdate (some (Except.ok state)) (pre ++ t :: post) =
      ((pre ++ t :: post).map (fun u => u.Name),
       some (ViewerError.targetFailed t.Name e)) := by
  have h1 := fanOutGo_fst state (pre ++ t :: post) ([], none)
  have h2 := fanOutGo_snd state (pre ++ t :: post) ([], none)
  have hrev : (pre ++ t :: post).reverse =
      (post.reverse ++ [t]) ++ pre.reverse := by
    simp
  have hnone : post.reverse.find? (failsOn state) = none := by
    rw [List.find?_eq_none]
    intro x hx
    have hxf := hpost x (List.mem_reverse.mp hx)
    simp [hxf]
  have hpt : failsOn state t = true := by simp [failsOn, ht]
  have hfr : ((post.reverse ++ [t]) ++ pre.reverse).find? (failsOn state) =
      some t := by
    rw [find?_append_cases, find?_append_cases, hnone]
    simp [List.find?, hpt]
  rw [Prod.ext_iff]
  constructor
  · simp only [viewerUpdate]
    rw [h1]
    simp
  · simp only [viewerUpdate]
    rw [h2, hrev, hfr]
    simp [updateErrOf, ht]

/-- Claim C2 witness: three concrete targets with only the middle one
failing — all three are invoked in order and the error names the middle
target with its cause. -/
theorem claim_C2_witness :
    viewerUpdate (some (Except.ok sampleState))
        [tOk "a", tBad "b" "boom", tOk "c"] =
      (["a", "b", "c"], some (ViewerError.targetFailed "b" "boom")) := by
  have h := claim_C2 sampleState [tOk "a"] [tOk "c"] (tBad "b" "boom") "boom"
    (by
      intro u hu
      rw [List.mem_singleton] at hu
      subst hu
      rfl)
    rfl
    (by
      intro u hu
      rw [List.mem_singleton] at hu
      subst hu
      rfl)
  simpa [tOk, tBad] using h

/-- The ceiling square root is positive on positive input, so the Go
`gridSize` clamp to 1 is the identity there. -/
theorem gridSizeFor_eq_ceilSqrt (n : Nat) (h : 1 ≤ n) :
    gridSizeFor n = ceilSqrt n := by
  have hs : 0 < Nat.sqrt n := Nat.sqrt_pos.mpr h
  have h1 : 1 ≤ ceilSqrt n := by
    rw [ceilSqrt]
    split <;> omega
  simp [gridSizeFor, Nat.max_eq_left h1]

/-- Element-wise description of the indexed lands loop. -/
theorem landsToJSON_getElem? (gridSize : Nat) (lands : List LandView)
    (i0 i : Nat) (land : LandView) (h : lands[i]? = some land) :
    (landsToJSON gridSize i0 lands)[i]? =
      some (landToJSON gridSize (i0 + i) land) := by
  induction lands generalizing i0 i with
  | nil => simp at h
  | cons l rest ih =>
    cases i with
    | zero =>
      rw [List.getElem?_cons_zero] at h
      have hl : l = land := by injection h
      subst hl
      simp [landsToJSON]
    | succ n =>
      rw [List.getElem?_cons_succ] at h
      have harith : i0 + 1 + n = i0 + (n + 1) := by omega
      simp only [landsToJSON, List.getElem?_cons_succ]
      rw [ih (i0 + 1) n h, harith]

/-- Claim C6 (confirmed): the JSON projection gives land `i` the coordinates
`(i mod g, i div g)` with `g` the ceiling square root of the number of
lands, precisely when the land's stored coordinates are the origin and
`i > 0`; every other land keeps its stored coordinates, and all remaining
fields are copied. -/
theorem claim_C6 (state : ViewState) (i : Nat) (land : LandView)
    (h : state.Lands[i]? = some land) :
    (ViewStateToJSON (some state)).Lands[i]? = some
      { ID := land.ID, Hostname := land.Hostname
        RAMTotal := land.RAMTotal, RAMAllocated := land.RAMAllocated
        CPUCores := 0, CPUFreqGHz := 0, GPUVram := 0, GPUTflops := 0
        Occupancy := land.Occupancy, IsManaland := land.IsManaland
        GridX := if land.GridX = 0 ∧ land.GridY = 0 ∧ 0 < i
          then ((i % ceilSqrt state.Lands.length : Nat) : Int)
          else land.GridX
        GridY := if land.GridX = 0 ∧ land.GridY = 0 ∧ 0 < i
          then ((i / ceilSqrt state.Lands.length : Nat) : Int)
          else land.GridY
        Trees := processViewsToJSON land.Trees "tree"
        Treehouses := processViewsToJSON land.Treehouses "treehouse"
        Nims := processViewsToJSON land.Nims "nim" } := by
  have hlen : i < state.Lands.length := by
    by_contra hge
    rw [List.getElem?_eq_none (by omega)] at h
    exact Option.noConfusion h
  have hpos : 1 ≤ state.Lands.length := by omega
  have hg := gridSizeFor_eq_ceilSqrt state.Lands.length hpos
  have hmain := landsToJSON_getElem? (gridSizeFor state.Lands.length)
    state.Lands 0 i land h
  show (landsToJSON (gridSizeFor state.Lands.length) 0 state.Lands)[i]? = _
  rw [hmain, hg]
  simp [landToJSON]

/-- Claim C6 witness: with two lands both stored at the origin, land 1 of
the projection receives `(1 mod 2, 1 div 2) = (1, 0)` while all its other
fields are copied. -/
theorem claim_C6_witness :
    witnessState.Lands[1]? = some witnessLand1 ∧
    (ViewStateToJSON (some witnessState)).Lands[1]? = some
      { ID := "b", Hostname := "h", RAMTotal := 0, RAMAllocated := 0
        CPUCores := 0, CPUFreqGHz := 0, GPUVram := 0, GPUTflops := 0
        Occupancy := 0, IsManaland := false, GridX := 1, GridY := 0
        Trees := [], Treehouses := [], Nims := [] } := by
  constructor
  · rfl
  · have h := claim_C6 witnessState 1 witnessLand1 rfl
    rw [h]
    have hsq : Nat.sqrt 2 = 1 := (Nat.eq_sqrt.mpr (by omega)).symm
    simp [witnessState, witnessLand1, witnessLand0, sampleState, ceilSqrt,
      hsq, processViewsToJSON]

/-- Claim C7 (counterexample): with the call sequence (bytes A, push
succeeds), (bytes B, push fails), (bytes A, push would succeed), the third
call's bytes equal those of the previous successful push (A), yet the code
pushes — the cache was overwritten by the *failed* push of B, so comparison
is not against the previous successful push. -/
theorem claim_C7_counterexample :
    ¬ suppressionWrtLastSuccessfulPush
        [([0], true), ([1], false), ([0], true)] := by
  unfold suppressionWrtLastSuccessfulPush
  decide

/-- Claim C7 (amended): `SmartTVTarget.Update` pushes on a call exactly when
the freshly encoded bytes differ from the bytes of the immediately preceding
encoding attempt (initially the empty cache), whether or not that previous
push succeeded: byte-identical consecutive output is pushed at most once,
and each change in the encoded bytes triggers exactly one push attempt. -/
theorem claim_C7_amended (calls : List (List Nat × Bool)) (cache : List Nat) :
    tvRun cache calls = changedFlags cache calls := by
  induction calls generalizing cache with
  | nil => rfl
  | cons c rest ih =>
    obtain ⟨jpegData, pushOk⟩ := c
    by_cases h : jpegData = cache
    · subst h
      simp [tvRun, tvUpdate, changedFlags, ih]
    · cases pushOk <;> simp [tvRun, tvUpdate, h, changedFlags, ih]

end NimsforestViewer
